import Mathlib

/-!
Verification of the Telnet MUD server core (src/mudserver.py, src/utils.py).

This file gives a shallow embedding of the parts of the program that the
claims are about:

* the per-connection Telnet framing state machine `_process_sent_data`
  (mudserver.py lines 544-722), embedded as `Mud.processByte` /
  `Mud.processSentData`;
* the connection registry, event double-buffer and `update` tick
  (mudserver.py lines 114-162, 368-493), embedded as `Mud.ServerState`,
  `Mud.update` and friends;
* the outbound formatter `send_message` (mudserver.py lines 222-251) and
  the colour utilities of utils.py, embedded as `Mud.send_message`,
  `Mud.multiple_replace`, `Mud.get_color`.

Bytes are `Nat` (values 0..255 on the wire); Python strings are `List Char`;
Python `None`/exceptions are `Option`/`Except`.  Socket effects are made
explicit: outbound writes are collected in lists, and transport conditions
(readable data, broken sockets, liveness-probe due) are passed in as
parameters of the tick, mirroring the non-deterministic environment of the
original code.
-/

namespace Mud

/-! ## Constants (mudserver.py lines 61-98; the source names carry a leading
underscore, dropped here). -/

def READ_STATE_NORMAL : Nat := 1
def READ_STATE_COMMAND : Nat := 2
def READ_STATE_SUBNEG : Nat := 3
def READ_NAWS : Nat := 4

def NAWS : Nat := 31
def MSSP : Nat := 70
def MXP : Nat := 91
def GMCP : Nat := 201

def TN_IAC : Nat := 255
def TN_DONT : Nat := 254
def TN_DO : Nat := 253
def TN_WONT : Nat := 252
def TN_WILL : Nat := 251
def TN_SUB_START : Nat := 250
def TN_SUB_END : Nat := 240

/-- One connected client (`MudServer._Client`, mudserver.py lines 39-57).
`buffer` is the accumulating line buffer.  `MXP_ENABLED`, `GMCP_ENABLED`,
`height` and `width` are attributes that the Python object only acquires
when negotiation first assigns them, hence `Option` with `none` = unset.
`color_enabled` is a class attribute defaulting to `True`. -/
structure Client where
  buffer : List Char
  color_enabled : Bool
  MXP_ENABLED : Option Bool
  GMCP_ENABLED : Option Bool
  height : Option Int
  width : Option Int
deriving DecidableEq, Repr

/-- A fresh client as built on accept (mudserver.py line 394). -/
def freshClient : Client :=
  { buffer := [], color_enabled := true, MXP_ENABLED := none,
    GMCP_ENABLED := none, height := none, width := none }

/-- An outbound write performed from inside the parser: either raw bytes
(`client.socket.sendall(byte_data)`, lines 623-624 and 635-636) or the MSSP
status reply (`self._send_mssp(client)`, line 644, whose payload depends on
server-wide data and is not inspected by any claim). -/
inductive Out where
  | raw : List Nat → Out
  | mssp : Out
deriving DecidableEq, Repr

/-- The subnegotiation reply sent when MXP (and also GMCP, see line 635
which reuses `self._MXP`) is enabled:
`IAC SUB_START MXP IAC SUB_END` (lines 623 and 635). -/
def mxpReply : List Nat := [TN_IAC, TN_SUB_START, MXP, TN_IAC, TN_SUB_END]

/-- The whole local state of one `_process_sent_data` call: the mutable
client plus the local variables `message`, `state`, `option_data`,
`option_state`, `option_support` (lines 554-566) and the writes performed. -/
structure ProcAcc where
  client : Client
  message : Option (List Char)
  state : Nat
  option_data : List Nat
  option_state : Nat
  option_support : Nat
  sent : List Out
deriving DecidableEq, Repr

/-- Big-endian signed 16-bit value of two bytes (one `h` of
`struct.unpack('>hh', ...)`, line 673). -/
def toInt16 (v : Nat) : Int :=
  if v < 32768 then (v : Int) else (v : Int) - 65536

/-- `struct.unpack('>hh', option_data)` (line 673): succeeds exactly on a
4-byte buffer, giving (height, width); anything else raises, which the
source catches (`except: pass`, lines 679-680). -/
def unpack_hh : List Nat → Option (Int × Int)
  | [b0, b1, b2, b3] => some (toInt16 (b0 * 256 + b1), toInt16 (b2 * 256 + b3))
  | _ => none

/-- One iteration of the `for c in data` loop of `_process_sent_data`
(mudserver.py lines 568-719), translated branch by branch.  For a byte `c`,
`chr(c) == "\n"` holds exactly when `c = 10` and `chr(c) == "\x08"` exactly
when `c = 8` (`chr` is injective), so those tests are written on the byte. -/
def processByte (a : ProcAcc) (c : Nat) : ProcAcc :=
  if a.state = READ_STATE_NORMAL then
    -- lines 573-598
    if c = TN_IAC then
      { a with state := READ_STATE_COMMAND }
    else if c = 10 then
      { a with message := some a.client.buffer,
               client := { a.client with buffer := [] } }
    else if c = 8 then
      { a with client := { a.client with buffer := a.client.buffer.dropLast } }
    else
      { a with client := { a.client with buffer := a.client.buffer ++ [Char.ofNat c] } }
  else if a.state = READ_STATE_COMMAND then
    -- lines 601-657
    if c = TN_SUB_START then
      { a with state := READ_STATE_SUBNEG }
    else if c = TN_WILL ∨ c = TN_WONT ∨ c = TN_DO ∨ c = TN_DONT then
      { a with option_support := c, state := READ_STATE_COMMAND }
    else if c = MXP then
      if a.option_support = TN_DO then
        { a with client := { a.client with MXP_ENABLED := some true },
                 sent := a.sent ++ [Out.raw mxpReply],
                 state := READ_STATE_NORMAL }
      else
        { a with client := { a.client with MXP_ENABLED := some false },
                 state := READ_STATE_NORMAL }
    else if c = GMCP then
      if a.option_support = TN_DO then
        { a with client := { a.client with GMCP_ENABLED := some true },
                 sent := a.sent ++ [Out.raw mxpReply],
                 state := READ_STATE_NORMAL }
      else
        { a with client := { a.client with GMCP_ENABLED := some false },
                 state := READ_STATE_NORMAL }
    else if c = MSSP then
      if a.option_support = TN_DO then
        { a with sent := a.sent ++ [Out.mssp], state := READ_STATE_NORMAL }
      else
        { a with state := READ_STATE_NORMAL }
    else
      { a with state := READ_STATE_NORMAL }
  else if a.state = READ_STATE_SUBNEG then
    -- lines 660-719: three consecutive (non-elif) `if` statements
    let a1 :=
      if c = TN_SUB_END then
        let a0 :=
          if a.option_state = READ_NAWS then
            let cl :=
              match unpack_hh a.option_data with
              | some hw =>
                  let cl1 := if hw.1 > 0 then { a.client with height := some hw.1 } else a.client
                  if hw.2 > 0 then { cl1 with width := some hw.2 } else cl1
              | none => a.client
            { a with client := cl, option_state := 0, option_data := [] }
          else a
        { a0 with state := READ_STATE_NORMAL }
      else a
    let a2 :=
      if c = NAWS then { a1 with option_state := READ_NAWS, option_data := [] } else a1
    if a2.option_state = READ_NAWS ∧ c ≠ NAWS ∧ c ≠ TN_IAC then
      { a2 with option_data := a2.option_data ++ [c] }
    else a2
  else a

/-- Initial local state of one `_process_sent_data` call (lines 554-566). -/
def initAcc (cl : Client) : ProcAcc :=
  { client := cl, message := none, state := READ_STATE_NORMAL,
    option_data := [], option_state := 0, option_support := 0, sent := [] }

/-- Result of one `_process_sent_data` call: the mutated client, the
returned message (line 722) and the bytes written back. -/
structure PSDResult where
  client : Client
  message : Option (List Char)
  sent : List Out
deriving DecidableEq, Repr

/-- `_process_sent_data(client, data)` (mudserver.py lines 544-722).  Note
that `state`, `option_data`, `option_state` and `option_support` are local
variables of the call: they are reinitialised on every invocation, and only
`client.buffer` (plus capability flags and dimensions) persists. -/
def processSentData (cl : Client) (data : List Nat) : PSDResult :=
  { client := (data.foldl processByte (initAcc cl)).client,
    message := (data.foldl processByte (initAcc cl)).message,
    sent := (data.foldl processByte (initAcc cl)).sent }

/-- One step of feeding a sequence of recv chunks to the same connection:
collects each call's completed message, as `_check_for_messages` would see
them (mudserver.py lines 455-458). -/
def chunkStep (acc : Client × List (List Char)) (ch : List Nat) :
    Client × List (List Char) :=
  let r := processSentData acc.1 ch
  (r.client, acc.2 ++ (match r.message with | some m => [m] | none => []))

/-- Feed a list of chunks to one connection, one `_process_sent_data` call
per chunk, collecting the completed messages in order. -/
def processChunks (cl : Client) (chunks : List (List Nat)) :
    Client × List (List Char) :=
  chunks.foldl chunkStep (cl, [])

/-! ## Colour utilities (src/utils.py lines 11-47) -/

/-- The `codes` dict of utils.py (lines 11-16), in insertion order (CPython
dicts iterate in insertion order). -/
def codes : List (List Char × Nat) :=
  [("resetall".data, 0), ("bold".data, 1), ("underline".data, 4),
   ("blink".data, 5), ("reverse".data, 7), ("boldoff".data, 22),
   ("blinkoff".data, 25), ("underlineoff".data, 24), ("reverseoff".data, 27),
   ("reset".data, 0), ("black".data, 30), ("red".data, 31),
   ("green".data, 32), ("yellow".data, 33), ("blue".data, 34),
   ("magenta".data, 35), ("cyan".data, 36), ("white".data, 37)]

/-- `get_color` (utils.py lines 35-38): unknown names give the empty string,
known names give the ANSI escape `"\x1b[{}m".format(code)`. -/
def get_color (name : List Char) : List Char :=
  match codes.find? (fun p => p.1 == name) with
  | none => []
  | some p => '\x1b' :: '[' :: (Nat.repr p.2).data ++ ['m']

/-- `get_color_list` (utils.py lines 28-32): maps `"%" + name` to `name`,
preserving the iteration order of `codes`. -/
def get_color_list : List (List Char × List Char) :=
  codes.map (fun p => ('%' :: p.1, p.1))

/-- Python `text.replace(pat, repl)` for a non-empty `pat`: replace all
non-overlapping occurrences left to right.  Implemented with a fuel
argument (one unit per consumed character) so that it is structural;
`pyReplace` supplies `text.length`, which is always enough fuel. -/
def replaceAux (pat repl : List Char) : Nat → List Char → List Char
  | _, [] => []
  | 0, text => text
  | fuel + 1, c :: rest =>
    if pat ≠ [] ∧ (c :: rest).take pat.length = pat then
      repl ++ replaceAux pat repl fuel ((c :: rest).drop pat.length)
    else
      c :: replaceAux pat repl fuel rest

/-- Python `text.replace(pat, repl)` (patterns used by the program are the
non-empty `"%" + colorname` tokens). -/
def pyReplace (text pat repl : List Char) : List Char :=
  replaceAux pat repl text.length text

/-- `multiple_replace` (utils.py lines 41-47): each token is replaced by its
escape sequence when colour is enabled, else stripped to empty. -/
def multiple_replace (text : List Char) (replace_words : List (List Char × List Char))
    (color_enabled : Bool) : List Char :=
  replace_words.foldl
    (fun t p => if color_enabled then pyReplace t p.1 (get_color p.2) else pyReplace t p.1 [])
    text

/-! ## Registry, events, tick (mudserver.py lines 100-520) -/

/-- An event tuple (mudserver.py lines 61-63, 411, 473, 493). -/
inductive MEvent where
  | newPlayer : Nat → MEvent
  | playerLeft : Nat → MEvent
  | command : Nat → List Char → List Char → MEvent
deriving DecidableEq, Repr

/-- The mutable server state: `_clients` (id-keyed map, modelled as an
association list with unique keys as a Python dict has), `_nextid`,
`_events` (visible list) and `_new_events` (pending list)
(mudserver.py lines 100-109, 119-122). -/
structure ServerState where
  clients : List (Nat × Client)
  nextid : Nat
  events : List MEvent
  new_events : List MEvent
deriving DecidableEq, Repr

/-- `self._clients[clid]` as a total lookup (`none` = `KeyError`). -/
def lookupClient (cs : List (Nat × Client)) (clid : Nat) : Option Client :=
  match cs.find? (fun p => p.1 == clid) with
  | some p => some p.2
  | none => none

/-- Replace the entry for `clid` (Python mutates the shared `_Client`
object, which for a dict with unique keys is this map update). -/
def storeClient (cs : List (Nat × Client)) (clid : Nat) (cl : Client) :
    List (Nat × Client) :=
  cs.map (fun p => if p.1 == clid then (clid, cl) else p)

/-- `_handle_disconnect` (mudserver.py lines 486-493): remove the client
from the map and enqueue one player-left event.  (`del` requires the key to
be present; every call site below reaches it only with the key present.) -/
def handleDisconnect (s : ServerState) (clid : Nat) : ServerState :=
  { s with clients := s.clients.filter (fun p => p.1 != clid),
           new_events := s.new_events ++ [MEvent.playerLeft clid] }

/-- `_attempt_send` (mudserver.py lines 338-366).  `broken clid = true`
models a transport failure of `sendall` on that client's socket.  A
`KeyError` from the `self._clients[clid]` lookup is caught and ignored
(lines 356-357); any other exception triggers `_handle_disconnect`
(line 366).  The second component is the wire traffic actually sent. -/
def attemptSend (broken : Nat → Bool) (s : ServerState) (clid : Nat)
    (data : List Char) : ServerState × List (Nat × List Char) :=
  match lookupClient s.clients clid with
  | none => (s, [])
  | some _ =>
      if broken clid then (handleDisconnect s clid, []) else (s, [(clid, data)])

/-- The `color` argument of `send_message`: `None`, a colour name string, or
a list of colour names (mudserver.py lines 241-246). -/
inductive ColorArg where
  | name : List Char → ColorArg
  | list : List (List Char) → ColorArg
deriving DecidableEq, Repr

/-- Python truthiness of the `color` argument (`if color and ...`,
line 241): `None`, `""` and `[]` are falsy. -/
def colorTruthy : Option ColorArg → Bool
  | none => false
  | some (ColorArg.name s) => !s.isEmpty
  | some (ColorArg.list l) => !l.isEmpty

/-- The uncaught exception `send_message` can raise. -/
inductive PyErr where
  | keyError : PyErr
deriving DecidableEq, Repr

/-- `message[i:i + 80] for i in range(0, len(message), 80)` (mudserver.py
lines 239-240), with fuel for structural recursion (fuel = length is always
enough since 80 > 0 characters are consumed per step). -/
def chunksAux : Nat → List Char → List (List Char)
  | _, [] => []
  | 0, text => [text]
  | fuel + 1, c :: rest => (c :: rest).take 80 :: chunksAux fuel ((c :: rest).drop 80)

/-- Split a message into 80-character chunks; the empty message gives no
chunks, exactly as the Python range comprehension does. -/
def chunk80 (text : List Char) : List (List Char) :=
  chunksAux text.length text

/-- `send_message` (mudserver.py lines 222-251), faithful to the source's
control flow, including the unguarded second `self._clients[to]` lookup in
`if color and self._clients[to].color_enabled:` (line 241) which raises
`KeyError` when `to` is no longer registered and `color` is truthy.  On
success returns the new state and the wire traffic. -/
def send_message (broken : Nat → Bool) (s : ServerState) (toid : Nat)
    (message : List Char) (line_ending : List Char) (color : Option ColorArg)
    (nowrap : Bool) : Except PyErr (ServerState × List (Nat × List Char)) :=
  let color_enabled :=
    match lookupClient s.clients toid with
    | some c => c.color_enabled
    | none => false
  let msg := multiple_replace message get_color_list color_enabled
  let lines := if nowrap then [msg] else chunk80 msg
  let body := List.intercalate "\r\n".data lines
  let plain :=
    if color_enabled then
      attemptSend broken s toid (body ++ line_ending ++ get_color "reset".data)
    else
      attemptSend broken s toid (body ++ line_ending)
  if colorTruthy color then
    match lookupClient s.clients toid with
    | none => Except.error PyErr.keyError
    | some c =>
        if c.color_enabled then
          let colors :=
            match color with
            | some (ColorArg.list l) => (l.map get_color).flatten
            | some (ColorArg.name n) => get_color n
            | none => []
          Except.ok (attemptSend broken s toid
            (colors ++ body ++ line_ending ++ get_color "reset".data))
        else Except.ok plain
  else Except.ok plain

/-- The environment of one tick: whether the listening socket has a pending
connection, and for each client id whether its 5-second liveness probe is
due, whether its socket's `sendall` fails, and what `recv` would return. -/
structure Activity where
  incoming : Bool
  due : Nat → Bool
  broken : Nat → Bool
  readable : Nat → Option (List Nat)

/-- `_check_for_new_connections` (mudserver.py lines 368-415): accept at
most one pending connection, register it under `_nextid`, enqueue a
new-player event and increment `_nextid`.  (The four negotiation requests
it writes to the socket are not part of the server state.) -/
def checkForNewConnections (s : ServerState) (act : Activity) : ServerState :=
  if act.incoming then
    { s with clients := s.clients ++ [(s.nextid, freshClient)],
             new_events := s.new_events ++ [MEvent.newPlayer s.nextid],
             nextid := s.nextid + 1 }
  else s

/-- Body of the `_check_for_disconnected` loop for one snapshot entry
(mudserver.py lines 420-434). -/
def probeStep (act : Activity) (st : ServerState) (p : Nat × Client) : ServerState :=
  if act.due p.1 then (attemptSend act.broken st p.1 ['\x00']).1 else st

/-- `_check_for_disconnected` (mudserver.py lines 417-434): for each client
of the snapshot whose probe is due, `_attempt_send` an invisible byte; a
transport failure disconnects the client. -/
def checkForDisconnected (s : ServerState) (act : Activity) : ServerState :=
  s.clients.foldl (probeStep act) s

/-- `message.strip()` whitespace set (Python strips space, tab, newline,
carriage return, vertical tab, form feed). -/
def isPySpace (c : Char) : Bool :=
  c = ' ' || c = '\t' || c = '\n' || c = '\r' || c = '\x0b' || c = '\x0c'

/-- Python `message.strip()` (mudserver.py line 465). -/
def pyStrip (l : List Char) : List Char :=
  ((l.dropWhile isPySpace).reverse.dropWhile isPySpace).reverse

/-- `message.split(" ", 1)` padded with `["", ""]` and truncated to two
elements (mudserver.py line 469): the part before the first space and the
part after it. -/
def splitFirstSpace : List Char → List Char × List Char
  | [] => ([], [])
  | c :: rest =>
    if c = ' ' then ([], rest)
    else
      let r := splitFirstSpace rest
      (c :: r.1, r.2)

/-- `command.lower()` (mudserver.py line 474); ASCII case folding. -/
def pyLower (l : List Char) : List Char := l.map Char.toLower

/-- `_check_for_messages` (mudserver.py lines 436-484): for each client of
the snapshot with readable data, feed the data to the framing machine,
store the mutated client, and if the returned message is truthy (non-`None`
and non-empty) strip it, split off the first word and enqueue a command
event. -/
def messageStep (act : Activity) (st : ServerState) (p : Nat × Client) : ServerState :=
  match act.readable p.1 with
  | none => st
  | some data =>
      match (processSentData p.2 data).message with
      | none => { st with clients := storeClient st.clients p.1 (processSentData p.2 data).client }
      | some m =>
          if m = [] then
            { st with clients := storeClient st.clients p.1 (processSentData p.2 data).client }
          else
            { st with
              clients := storeClient st.clients p.1 (processSentData p.2 data).client,
              new_events := st.new_events ++
                [MEvent.command p.1 (pyLower (splitFirstSpace (pyStrip m)).1)
                  (splitFirstSpace (pyStrip m)).2] }

/-- `_check_for_messages` as a fold of `messageStep` over the snapshot. -/
def checkForMessages (s : ServerState) (act : Activity) : ServerState :=
  s.clients.foldl (messageStep act) s

/-- `update` (mudserver.py lines 145-162): the three checks in order, then
the pending event list replaces the visible one and is cleared. -/
def update (s : ServerState) (act : Activity) : ServerState :=
  let s1 := checkForNewConnections s act
  let s2 := checkForDisconnected s1 act
  let s3 := checkForMessages s2 act
  { s3 with events := s3.new_events, new_events := [] }

/-- `get_new_players` (mudserver.py lines 176-188). -/
def get_new_players (s : ServerState) : List Nat :=
  s.events.foldl
    (fun r e => match e with | MEvent.newPlayer id => r ++ [id] | _ => r) []

/-- `get_commands` (mudserver.py lines 205-220). -/
def get_commands (s : ServerState) : List (Nat × List Char × List Char) :=
  s.events.foldl
    (fun r e => match e with | MEvent.command id c p => r ++ [(id, c, p)] | _ => r) []

/-- A tick environment with no external activity at all. -/
def noActivity : Activity :=
  { incoming := false, due := fun _ => false, broken := fun _ => false,
    readable := fun _ => none }

/-- A tick environment whose only activity is one pending connection. -/
def acceptActivity : Activity := { noActivity with incoming := true }

/-- The identifiers handed out over a run of ticks: each accepting tick
assigns the current `_nextid` (mudserver.py lines 394, 415). -/
def assignedIds : ServerState → List Activity → List Nat
  | _, [] => []
  | s, act :: rest =>
      (if act.incoming then [s.nextid] else []) ++ assignedIds (update s act) rest

/-! ## Helper lemmas about the framing machine -/

/-- The Normal-state transition restricted to (line buffer, completed
message); the framing machine agrees with it on every byte except IAC. -/
def lineStep (p : List Char × Option (List Char)) (c : Nat) :
    List Char × Option (List Char) :=
  if c = 10 then ([], some p.1)
  else if c = 8 then (p.1.dropLast, p.2)
  else (p.1 ++ [Char.ofNat c], p.2)

/-- The line-buffer evolution alone, for newline-free byte runs. -/
def bufStep (b : List Char) (c : Nat) : List Char :=
  if c = 8 then b.dropLast else b ++ [Char.ofNat c]

theorem processByte_normal (a : ProcAcc) (c : Nat) (h : a.state = READ_STATE_NORMAL)
    (hc : c ≠ TN_IAC) :
    processByte a c =
      { a with client := { a.client with buffer := (lineStep (a.client.buffer, a.message) c).1 },
               message := (lineStep (a.client.buffer, a.message) c).2 } := by
  by_cases h10 : c = 10
  · subst h10; simp [processByte, lineStep, h, hc]
  · by_cases h8 : c = 8
    · subst h8; simp [processByte, lineStep, h, hc]
    · simp [processByte, lineStep, h, hc, h10, h8]

/-- On IAC-free input the framing machine stays in Normal state and only
the line buffer and completed message evolve (by `lineStep`). -/
theorem run_no_iac : ∀ (data : List Nat) (a : ProcAcc), a.state = READ_STATE_NORMAL →
    (255 : Nat) ∉ data →
    data.foldl processByte a =
      { a with
        client := { a.client with buffer := (data.foldl lineStep (a.client.buffer, a.message)).1 },
        message := (data.foldl lineStep (a.client.buffer, a.message)).2 }
  | [], _, _, _ => rfl
  | c :: rest, a, h, h255 => by
    have hc : c ≠ TN_IAC := fun e => h255 (e ▸ List.mem_cons_self c rest)
    have h255r : (255 : Nat) ∉ rest := fun hr => h255 (List.mem_cons_of_mem _ hr)
    have ih := run_no_iac rest
      { a with
        client := { a.client with buffer := (lineStep (a.client.buffer, a.message) c).1 },
        message := (lineStep (a.client.buffer, a.message) c).2 } h h255r
    rw [List.foldl_cons, processByte_normal a c h hc, ih]
    rfl

/-- `_process_sent_data` on IAC-free input: no writes, no capability or
dimension change, and the buffer/message given by the `lineStep` fold. -/
theorem psd_no_iac (cl : Client) (data : List Nat) (h255 : (255 : Nat) ∉ data) :
    processSentData cl data =
      { client := { cl with buffer := (data.foldl lineStep (cl.buffer, none)).1 },
        message := (data.foldl lineStep (cl.buffer, none)).2,
        sent := [] } := by
  have h := run_no_iac data (initAcc cl) rfl h255
  simp only [processSentData, h]
  rfl

theorem lineStep_no_nl : ∀ (s : List Nat) (b : List Char) (m : Option (List Char)),
    (10 : Nat) ∉ s →
    s.foldl lineStep (b, m) = (s.foldl bufStep b, m)
  | [], _, _, _ => rfl
  | c :: rest, b, m, h => by
    have hc : c ≠ 10 := fun e => h (e ▸ List.mem_cons_self c rest)
    have hr : (10 : Nat) ∉ rest := fun hx => h (List.mem_cons_of_mem _ hx)
    have hstep : lineStep (b, m) c = (bufStep b c, m) := by
      by_cases h8 : c = 8 <;> simp [lineStep, bufStep, hc, h8]
    rw [List.foldl_cons, hstep, List.foldl_cons, lineStep_no_nl rest _ m hr]

theorem bufStep_no_bs : ∀ (s : List Nat) (b : List Char), (8 : Nat) ∉ s →
    s.foldl bufStep b = b ++ s.map Char.ofNat
  | [], b, _ => by simp
  | c :: rest, b, h => by
    have hc : c ≠ 8 := fun e => h (e ▸ List.mem_cons_self c rest)
    have hr : (8 : Nat) ∉ rest := fun hx => h (List.mem_cons_of_mem _ hx)
    have hstep : bufStep b c = b ++ [Char.ofNat c] := by simp [bufStep, hc]
    rw [List.foldl_cons, hstep, bufStep_no_bs rest _ hr]
    simp

/-- Chunks that flatten to nothing are all empty and process to nothing. -/
theorem chunks_nil : ∀ (chunks : List (List Nat)) (cl : Client) (msgs : List (List Char)),
    chunks.flatten = [] →
    chunks.foldl chunkStep (cl, msgs) = (cl, msgs)
  | [], _, _, _ => rfl
  | ch :: rest, cl, msgs, h => by
    rw [List.flatten_cons] at h
    obtain ⟨hch, hrest⟩ := List.append_eq_nil.mp h
    subst hch
    have hstep : chunkStep (cl, msgs) [] = (cl, msgs) := by
      simp [chunkStep, processSentData, initAcc]
    rw [List.foldl_cons, hstep]
    exact chunks_nil rest cl msgs hrest

/-- Feeding an IAC-free, single-newline-terminated line to a connection in
any number of chunks ends with an empty buffer and exactly the one
completed line, independent of the chunk boundaries. -/
theorem chunks_line : ∀ (chunks : List (List Nat)) (cl : Client) (s : List Nat)
    (msgs : List (List Char)),
    chunks.flatten = s ++ [10] → (10 : Nat) ∉ s → (255 : Nat) ∉ s →
    chunks.foldl chunkStep (cl, msgs)
      = ({ cl with buffer := [] }, msgs ++ [s.foldl bufStep cl.buffer])
  | [], _, s, _, h, _, _ => by simp at h
  | ch :: rest, cl, s, msgs, h, h10, h255 => by
    rw [List.flatten_cons] at h
    by_cases hF : rest.flatten = []
    · have hch : ch = s ++ [10] := by simpa [hF] using h
      have hn : (255 : Nat) ∉ s ++ [10] := by
        intro hx
        rcases List.mem_append.mp hx with hx | hx
        · exact h255 hx
        · simp at hx
      have hfold : (s ++ [10]).foldl lineStep (cl.buffer, none)
          = ([], some (s.foldl bufStep cl.buffer)) := by
        rw [List.foldl_append, lineStep_no_nl s _ _ h10, List.foldl_cons]
        simp [lineStep]
      have hstep : chunkStep (cl, msgs) (s ++ [10])
          = ({ cl with buffer := [] }, msgs ++ [s.foldl bufStep cl.buffer]) := by
        simp [chunkStep, psd_no_iac cl (s ++ [10]) hn, hfold]
      rw [List.foldl_cons, hch, hstep]
      exact chunks_nil rest _ _ hF
    · have hsplit : ∃ s2, s = ch ++ s2 ∧ rest.flatten = s2 ++ [10] := by
        rcases List.append_eq_append_iff.mp h with ⟨a2, ha, hb⟩ | ⟨c2, hc, hd⟩
        · exact ⟨a2, ha, hb⟩
        · cases c2 with
          | nil =>
              have h1 : ch = s := by simpa using hc
              exact ⟨[], by simp [h1], by simpa using hd.symm⟩
          | cons y ys =>
              exfalso
              cases hFl : rest.flatten with
              | nil => exact hF hFl
              | cons z zs =>
                  rw [hFl] at hd
                  have hlen := congrArg List.length hd
                  simp [List.length_append] at hlen
      obtain ⟨s2, hs, hFs⟩ := hsplit
      subst hs
      have h10ch : (10 : Nat) ∉ ch := fun hx => h10 (List.mem_append_left _ hx)
      have h255ch : (255 : Nat) ∉ ch := fun hx => h255 (List.mem_append_left _ hx)
      have h10s2 : (10 : Nat) ∉ s2 := fun hx => h10 (List.mem_append_right _ hx)
      have h255s2 : (255 : Nat) ∉ s2 := fun hx => h255 (List.mem_append_right _ hx)
      have hstep : chunkStep (cl, msgs) ch
          = ({ cl with buffer := ch.foldl bufStep cl.buffer }, msgs) := by
        simp [chunkStep, psd_no_iac cl ch h255ch, lineStep_no_nl ch _ _ h10ch]
      have ih := chunks_line rest { cl with buffer := ch.foldl bufStep cl.buffer } s2 msgs
        hFs h10s2 h255s2
      rw [List.foldl_cons, hstep, ih, List.foldl_append]

/-! ## Claim C1 -/

/-- Claim C1 counterexample: chunk boundaries are NOT invariant in general,
because the Normal/Command/Subnegotiation state is a local variable of each
`_process_sent_data` call (reset on entry, mudserver.py line 555), not
per-Connection state.  Feeding `IAC WILL LF` in one call yields no
completed message (the LF is consumed in Command state), while the split
`[IAC]`, `[WILL, LF]` yields the completed message `[chr 251]`: the second
call restarts in Normal state, treats the WILL byte as text and the LF as
end of line. -/
theorem c1_chunk_split_counterexample :
    processChunks freshClient [[255], [251, 10]]
      ≠ processChunks freshClient [[255, 251, 10]] := by decide

/-- Claim C1 amended: chunk-boundary invariance does hold for every input
line that contains no IAC byte (so the parser never leaves the Normal
state, whose only per-call-local effect is moot): for any partition of
`s ++ [LF]` (with `s` free of LF and IAC) into chunks, feeding the chunks
one call at a time yields the same final connection state and the same
single completed message as feeding the whole line in one call. -/
theorem c1_chunk_invariance_amended (cl : Client) (chunks : List (List Nat)) (s : List Nat)
    (hflat : chunks.flatten = s ++ [10]) (h10 : (10 : Nat) ∉ s) (h255 : (255 : Nat) ∉ s) :
    processChunks cl chunks = processChunks cl [s ++ [10]] := by
  unfold processChunks
  rw [chunks_line chunks cl s [] hflat h10 h255,
      chunks_line [s ++ [10]] cl s [] (by simp) h10 h255]

/-- Witness for `c1_chunk_invariance_amended` at the line "hi\n" split
after the first byte. -/
theorem c1_chunk_invariance_witness :
    processChunks freshClient [[104], [105, 10]]
      = processChunks freshClient [[104, 105] ++ [10]] :=
  c1_chunk_invariance_amended freshClient [[104], [105, 10]] [104, 105]
    (by decide) (by decide) (by decide)

/-! ## Claim C2 -/

/-- Claim C2 counterexample: for an IAC-free sequence the returned message
is the content of the buffer at the LAST newline, not "the text before the
first newline".  On `"a\nb\n"` (no IAC byte, empty initial buffer) the text
before the first newline is "a", but `_process_sent_data` returns "b",
because `message` is overwritten at every newline (mudserver.py
lines 584-586) and only the final value is returned. -/
theorem c2_no_iac_counterexample :
    (processSentData freshClient [97, 10, 98, 10]).message ≠ some ['a'] := by decide

/-- Claim C2 amended: for every byte sequence with no IAC byte (255), no
backspace byte (8), and exactly one newline, fed to a connection with an
empty line buffer, the returned message is exactly the text before that
newline, and no capability change, dimension change or outbound write is
triggered.  (Backspaces edit the buffer and later newlines overwrite the
returned message, hence the two extra exclusions.) -/
theorem c2_no_iac_amended (cl : Client) (s t : List Nat)
    (hbuf : cl.buffer = [])
    (h255 : (255 : Nat) ∉ s ++ 10 :: t)
    (h8 : (8 : Nat) ∉ s ++ 10 :: t)
    (h10s : (10 : Nat) ∉ s) (h10t : (10 : Nat) ∉ t) :
    (processSentData cl (s ++ 10 :: t)).message = some (s.map Char.ofNat) ∧
    (processSentData cl (s ++ 10 :: t)).client.color_enabled = cl.color_enabled ∧
    (processSentData cl (s ++ 10 :: t)).client.MXP_ENABLED = cl.MXP_ENABLED ∧
    (processSentData cl (s ++ 10 :: t)).client.GMCP_ENABLED = cl.GMCP_ENABLED ∧
    (processSentData cl (s ++ 10 :: t)).client.height = cl.height ∧
    (processSentData cl (s ++ 10 :: t)).client.width = cl.width ∧
    (processSentData cl (s ++ 10 :: t)).sent = [] := by
  have h8s : (8 : Nat) ∉ s := fun hx => h8 (List.mem_append_left _ hx)
  have hfold : (s ++ 10 :: t).foldl lineStep (cl.buffer, none)
      = (t.foldl bufStep [], some (s.map Char.ofNat)) := by
    rw [List.foldl_append, lineStep_no_nl s _ _ h10s, bufStep_no_bs s _ h8s, hbuf,
        List.foldl_cons]
    have hnl : lineStep (([] : List Char) ++ s.map Char.ofNat, none) 10
        = ([], some (s.map Char.ofNat)) := by simp [lineStep]
    rw [hnl, lineStep_no_nl t _ _ h10t]
  rw [psd_no_iac cl _ h255, hfold]
  simp

/-- Witness for `c2_no_iac_amended` at the sequence "hi\n". -/
theorem c2_no_iac_witness :
    (processSentData freshClient ([104, 105] ++ 10 :: [])).message
        = some ([104, 105].map Char.ofNat) ∧
    (processSentData freshClient ([104, 105] ++ 10 :: [])).client.color_enabled
        = freshClient.color_enabled ∧
    (processSentData freshClient ([104, 105] ++ 10 :: [])).client.MXP_ENABLED
        = freshClient.MXP_ENABLED ∧
    (processSentData freshClient ([104, 105] ++ 10 :: [])).client.GMCP_ENABLED
        = freshClient.GMCP_ENABLED ∧
    (processSentData freshClient ([104, 105] ++ 10 :: [])).client.height
        = freshClient.height ∧
    (processSentData freshClient ([104, 105] ++ 10 :: [])).client.width
        = freshClient.width ∧
    (processSentData freshClient ([104, 105] ++ 10 :: [])).sent = [] :=
  c2_no_iac_amended freshClient [104, 105] [] rfl (by decide) (by decide)
    (by decide) (by decide)

/-! ## Claim C3 -/

/-- `struct.unpack('>hh', b)` raises unless `b` has exactly 4 bytes. -/
theorem unpack_hh_len (l : List Nat) (h : l.length ≠ 4) : unpack_hh l = none :=
  match l, h with
  | [], _ => rfl
  | [_], _ => rfl
  | [_, _], _ => rfl
  | [_, _, _], _ => rfl
  | [_, _, _, _], h => absurd rfl h
  | _ :: _ :: _ :: _ :: _ :: _, _ => rfl

/-- While collecting a window-size subnegotiation, bytes other than the
NAWS marker, the subnegotiation end and IAC are appended to the option
buffer and nothing else changes (mudserver.py lines 713-719). -/
theorem run_subneg_collect : ∀ (payload : List Nat) (a : ProcAcc),
    a.state = READ_STATE_SUBNEG → a.option_state = READ_NAWS →
    (∀ b ∈ payload, b ≠ NAWS ∧ b ≠ TN_SUB_END ∧ b ≠ TN_IAC) →
    payload.foldl processByte a = { a with option_data := a.option_data ++ payload }
  | [], a, _, _, _ => by simp
  | c :: rest, a, h3, h4, hb => by
    obtain ⟨hn, he, hi⟩ := hb c (List.mem_cons_self c rest)
    have hbr : ∀ b ∈ rest, b ≠ NAWS ∧ b ≠ TN_SUB_END ∧ b ≠ TN_IAC :=
      fun b hb2 => hb b (List.mem_cons_of_mem _ hb2)
    have hstep : processByte a c = { a with option_data := a.option_data ++ [c] } := by
      simp [processByte, h3, h4, hn, he, hi, READ_STATE_NORMAL, READ_STATE_COMMAND,
            READ_STATE_SUBNEG]
    have ih := run_subneg_collect rest { a with option_data := a.option_data ++ [c] }
      h3 h4 hbr
    rw [List.foldl_cons, hstep, ih]
    simp

/-- The two final bytes `IAC SUB_END` of a subnegotiation, reached in
Subnegotiation state while collecting NAWS data that fails to unpack:
dimensions stay untouched, the option state resets and parsing returns to
Normal (mudserver.py lines 665-682, 707). -/
theorem run_subneg_end_fail (a : ProcAcc)
    (h3 : a.state = READ_STATE_SUBNEG) (h4 : a.option_state = READ_NAWS)
    (hu : unpack_hh a.option_data = none) :
    [255, 240].foldl processByte a
      = { a with state := READ_STATE_NORMAL, option_state := 0, option_data := [] } := by
  have h255 : processByte a 255 = a := by
    simp [processByte, h3, h4, READ_STATE_NORMAL, READ_STATE_COMMAND, READ_STATE_SUBNEG,
          READ_NAWS, NAWS, TN_SUB_END, TN_IAC]
  have h240 : processByte a 240
      = { a with state := READ_STATE_NORMAL, option_state := 0, option_data := [] } := by
    simp [processByte, h3, h4, hu, READ_STATE_NORMAL, READ_STATE_COMMAND, READ_STATE_SUBNEG,
          READ_NAWS, NAWS, TN_SUB_END, TN_IAC]
  rw [List.foldl_cons, h255, List.foldl_cons, h240, List.foldl_nil]

/-- The two final bytes `IAC SUB_END`, reached while collecting NAWS data
that unpacks to two positive integers: height then width are updated
(mudserver.py lines 673-677) and parsing returns to Normal. -/
theorem run_subneg_end_ok (a : ProcAcc) (h w : Int)
    (h3 : a.state = READ_STATE_SUBNEG) (h4 : a.option_state = READ_NAWS)
    (hu : unpack_hh a.option_data = some (h, w)) (hh : h > 0) (hw : w > 0) :
    [255, 240].foldl processByte a
      = { a with client := { a.client with height := some h, width := some w },
                 state := READ_STATE_NORMAL, option_state := 0, option_data := [] } := by
  have h255 : processByte a 255 = a := by
    simp [processByte, h3, h4, READ_STATE_NORMAL, READ_STATE_COMMAND, READ_STATE_SUBNEG,
          READ_NAWS, NAWS, TN_SUB_END, TN_IAC]
  have h240 : processByte a 240
      = { a with client := { a.client with height := some h, width := some w },
                 state := READ_STATE_NORMAL, option_state := 0, option_data := [] } := by
    simp [processByte, h3, h4, hu, hh, hw, READ_STATE_NORMAL, READ_STATE_COMMAND,
          READ_STATE_SUBNEG, READ_NAWS, NAWS, TN_SUB_END, TN_IAC]
  rw [List.foldl_cons, h255, List.foldl_cons, h240, List.foldl_nil]

/-- Canonical parser state while collecting a NAWS subnegotiation: reached
from a fresh call after `IAC SUB_START NAWS`, with `od` accumulated. -/
def subnegAcc (cl : Client) (od : List Nat) : ProcAcc :=
  { client := cl, message := none, state := READ_STATE_SUBNEG,
    option_data := od, option_state := READ_NAWS, option_support := 0, sent := [] }

theorem subneg_collect_acc (cl : Client) (od payload : List Nat)
    (hbytes : ∀ b ∈ payload, b ≠ NAWS ∧ b ≠ TN_SUB_END ∧ b ≠ TN_IAC) :
    payload.foldl processByte (subnegAcc cl od) = subnegAcc cl (od ++ payload) := by
  rw [run_subneg_collect payload (subnegAcc cl od) rfl rfl hbytes]
  rfl

theorem subneg_end_fail_acc (cl : Client) (od : List Nat)
    (hu : unpack_hh od = none) :
    [255, 240].foldl processByte (subnegAcc cl od) = initAcc cl := by
  rw [run_subneg_end_fail (subnegAcc cl od) rfl rfl hu]
  rfl

theorem subneg_end_ok_acc (cl : Client) (od : List Nat) (h w : Int)
    (hu : unpack_hh od = some (h, w)) (hh : h > 0) (hw : w > 0) :
    [255, 240].foldl processByte (subnegAcc cl od)
      = initAcc { cl with height := some h, width := some w } := by
  rw [run_subneg_end_ok (subnegAcc cl od) h w rfl rfl hu hh hw]
  rfl

/-- Claim C3 counterexample: the payload {0,80,0,24} does NOT set width=80
and height=24.  `_process_sent_data` unpacks the two big-endian 16-bit
integers as (height, width) in that order (mudserver.py line 673), so on a
connection with prior dimensions (30, 100) it sets height=80, width=24. -/
theorem c3_naws_counterexample :
    ¬ ((processSentData { freshClient with height := some 30, width := some 100 }
          [255, 250, 31, 0, 80, 0, 24, 255, 240]).client.width = some 80 ∧
       (processSentData { freshClient with height := some 30, width := some 100 }
          [255, 250, 31, 0, 80, 0, 24, 255, 240]).client.height = some 24) := by decide

/-- Claim C3 amended: a window-size subnegotiation with accumulated payload
{0,80,0,24} terminated by end-of-subnegotiation sets HEIGHT to 80 and WIDTH
to 24 (the source parses the pair as height-then-width); and for every
payload of odd length — which cannot satisfy the 4-byte requirement of the
two-int16 parse — both dimensions keep their prior values. -/
theorem c3_naws_amended (cl : Client) (payload : List Nat)
    (hodd : payload.length % 2 = 1)
    (hbytes : ∀ b ∈ payload, b ≠ NAWS ∧ b ≠ TN_SUB_END ∧ b ≠ TN_IAC) :
    ((processSentData cl ([255, 250, 31] ++ [0, 80, 0, 24] ++ [255, 240])).client.height
        = some 80 ∧
     (processSentData cl ([255, 250, 31] ++ [0, 80, 0, 24] ++ [255, 240])).client.width
        = some 24) ∧
    (processSentData cl ([255, 250, 31] ++ payload ++ [255, 240])).client.height = cl.height ∧
    (processSentData cl ([255, 250, 31] ++ payload ++ [255, 240])).client.width = cl.width := by
  have h0 : [255, 250, 31].foldl processByte (initAcc cl) = subnegAcc cl [] := rfl
  constructor
  · have hsub4 := subneg_collect_acc cl [] [0, 80, 0, 24] (by decide)
    have hend4 := subneg_end_ok_acc cl ([] ++ [0, 80, 0, 24]) 80 24 (by decide)
      (by decide) (by decide)
    have hclient4 :
        (processSentData cl ([255, 250, 31] ++ [0, 80, 0, 24] ++ [255, 240])).client
          = { cl with height := some 80, width := some 24 } := by
      simp only [processSentData]
      rw [List.foldl_append, List.foldl_append, h0, hsub4, hend4]
      rfl
    rw [hclient4]
    exact ⟨rfl, rfl⟩
  · have hsub := subneg_collect_acc cl [] payload hbytes
    have hu : unpack_hh ([] ++ payload) = none := by
      simpa using unpack_hh_len payload (by omega)
    have hend := subneg_end_fail_acc cl ([] ++ payload) hu
    have hclient : (processSentData cl ([255, 250, 31] ++ payload ++ [255, 240])).client = cl := by
      simp only [processSentData]
      rw [List.foldl_append, List.foldl_append, h0, hsub, hend]
      rfl
    rw [hclient]
    exact ⟨rfl, rfl⟩

/-- Witness for `c3_naws_amended` with the odd payload `[0]`. -/
theorem c3_naws_witness :
    ((processSentData freshClient ([255, 250, 31] ++ [0, 80, 0, 24] ++ [255, 240])).client.height
        = some 80 ∧
     (processSentData freshClient ([255, 250, 31] ++ [0, 80, 0, 24] ++ [255, 240])).client.width
        = some 24) ∧
    (processSentData freshClient ([255, 250, 31] ++ [0] ++ [255, 240])).client.height
        = freshClient.height ∧
    (processSentData freshClient ([255, 250, 31] ++ [0] ++ [255, 240])).client.width
        = freshClient.width :=
  c3_naws_amended freshClient [0] (by decide) (by decide)

/-! ## Claim C4 -/

/-- Claim C4 counterexample: `IAC WILL MXP` does not enable MXP.  The
source enables MXP only when the remembered verb is DO (mudserver.py
line 619); any other verb, including WILL, sets the flag to disabled
(line 627).  So the claimed enabling sequence actually disables. -/
theorem c4_mxp_counterexample :
    (processSentData freshClient [255, 251, 91]).client.MXP_ENABLED ≠ some true ∧
    (processSentData freshClient [255, 251, 91]).client.MXP_ENABLED = some false := by decide

/-- Claim C4 amended: processing `IAC DO MXP` sets the connection's MXP
flag to enabled, `IAC WILL MXP` instead sets it to disabled (the source
enables only on the remembered verb DO, mudserver.py line 619), and a
subsequent `IAC WONT MXP` sets it to disabled; in every case no other
capability flag, dimension, colour setting or line buffer of the
connection changes. -/
theorem c4_mxp_amended (cl : Client) :
    (processSentData cl [255, 253, 91]).client.MXP_ENABLED = some true ∧
    (processSentData cl [255, 253, 91]).client.GMCP_ENABLED = cl.GMCP_ENABLED ∧
    (processSentData cl [255, 253, 91]).client.color_enabled = cl.color_enabled ∧
    (processSentData cl [255, 253, 91]).client.height = cl.height ∧
    (processSentData cl [255, 253, 91]).client.width = cl.width ∧
    (processSentData cl [255, 253, 91]).client.buffer = cl.buffer ∧
    (processSentData cl [255, 251, 91]).client.MXP_ENABLED = some false ∧
    (processSentData cl [255, 251, 91]).client.GMCP_ENABLED = cl.GMCP_ENABLED ∧
    (processSentData cl [255, 251, 91]).client.color_enabled = cl.color_enabled ∧
    (processSentData cl [255, 251, 91]).client.height = cl.height ∧
    (processSentData cl [255, 251, 91]).client.width = cl.width ∧
    (processSentData cl [255, 251, 91]).client.buffer = cl.buffer ∧
    (processSentData (processSentData cl [255, 253, 91]).client [255, 252, 91]).client.MXP_ENABLED
        = some false ∧
    (processSentData (processSentData cl [255, 253, 91]).client [255, 252, 91]).client.GMCP_ENABLED
        = cl.GMCP_ENABLED ∧
    (processSentData (processSentData cl [255, 253, 91]).client [255, 252, 91]).client.color_enabled
        = cl.color_enabled ∧
    (processSentData (processSentData cl [255, 253, 91]).client [255, 252, 91]).client.height
        = cl.height ∧
    (processSentData (processSentData cl [255, 253, 91]).client [255, 252, 91]).client.width
        = cl.width ∧
    (processSentData (processSentData cl [255, 253, 91]).client [255, 252, 91]).client.buffer
        = cl.buffer :=
  ⟨rfl, rfl, rfl, rfl, rfl, rfl, rfl, rfl, rfl, rfl, rfl, rfl, rfl, rfl, rfl, rfl, rfl, rfl⟩

/-! ## Claim C5 -/

theorem find_filter_ne (cs : List (Nat × Client)) (clid : Nat) :
    (cs.filter (fun p => p.1 != clid)).find? (fun p => p.1 == clid) = none := by
  induction cs with
  | nil => rfl
  | cons p rest ih =>
      by_cases h : p.1 = clid
      · simp [List.filter_cons, h, ih]
      · simp [List.filter_cons, h, ih]

theorem lookup_filter_ne (cs : List (Nat × Client)) (clid : Nat) :
    lookupClient (cs.filter (fun p => p.1 != clid)) clid = none := by
  unfold lookupClient
  rw [find_filter_ne]

/-- Claim C5 (confirmed): when transport failures trigger disconnection
handling twice for the same identifier within one tick, exactly one
player-left event is enqueued and no error escapes.  The first
`_attempt_send` removes the client and enqueues the event; the second finds
no registry entry, so its `KeyError` is caught (`except KeyError: pass`,
mudserver.py lines 356-357) and `_handle_disconnect` is never re-entered:
the composite removal is idempotent per identifier. -/
theorem c5_disconnect_idempotent (s : ServerState) (clid : Nat) (d1 d2 : List Char)
    (broken : Nat → Bool) (c : Client)
    (hl : lookupClient s.clients clid = some c) (hb : broken clid = true) :
    (attemptSend broken (attemptSend broken s clid d1).1 clid d2).1.new_events
      = s.new_events ++ [MEvent.playerLeft clid] ∧
    lookupClient (attemptSend broken (attemptSend broken s clid d1).1 clid d2).1.clients clid
      = none ∧
    (attemptSend broken (attemptSend broken s clid d1).1 clid d2).1.events = s.events ∧
    (attemptSend broken (attemptSend broken s clid d1).1 clid d2).1.nextid = s.nextid := by
  have h1 : attemptSend broken s clid d1 = (handleDisconnect s clid, []) := by
    simp [attemptSend, hl, hb]
  have h2 : lookupClient (handleDisconnect s clid).clients clid = none := by
    simp only [handleDisconnect]
    exact lookup_filter_ne s.clients clid
  have h3 : attemptSend broken (handleDisconnect s clid) clid d2
      = (handleDisconnect s clid, []) := by
    simp [attemptSend, h2]
  rw [h1]
  simp only [h3]
  exact ⟨by simp [handleDisconnect], h2, rfl, rfl⟩

/-- Witness for `c5_disconnect_idempotent`: one registered client whose
socket always fails. -/
theorem c5_disconnect_idempotent_witness :
    (attemptSend (fun _ => true)
        (attemptSend (fun _ => true)
          { clients := [(7, freshClient)], nextid := 8, events := [], new_events := [] }
          7 ['x']).1 7 ['y']).1.new_events
      = ([] : List MEvent) ++ [MEvent.playerLeft 7] ∧
    lookupClient
        (attemptSend (fun _ => true)
          (attemptSend (fun _ => true)
            { clients := [(7, freshClient)], nextid := 8, events := [], new_events := [] }
            7 ['x']).1 7 ['y']).1.clients 7
      = none ∧
    (attemptSend (fun _ => true)
        (attemptSend (fun _ => true)
          { clients := [(7, freshClient)], nextid := 8, events := [], new_events := [] }
          7 ['x']).1 7 ['y']).1.events = ([] : List MEvent) ∧
    (attemptSend (fun _ => true)
        (attemptSend (fun _ => true)
          { clients := [(7, freshClient)], nextid := 8, events := [], new_events := [] }
          7 ['x']).1 7 ['y']).1.nextid = 8 :=
  c5_disconnect_idempotent
    { clients := [(7, freshClient)], nextid := 8, events := [], new_events := [] }
    7 ['x'] ['y'] (fun _ => true) freshClient rfl rfl

/-! ## Claim C6 -/

/-- Claim C6 (code bug): sending to an identifier absent from the registry
is NOT always a silent no-op.  With a truthy `color` argument the guard
`if color and self._clients[to].color_enabled:` (mudserver.py line 241)
performs an unguarded registry lookup and raises an uncaught `KeyError` —
even though the two other lookups in the send path (lines 230-233 and
352-357) deliberately catch `KeyError` for exactly this race.  Evaluated
here on an empty registry with `color="red"`. -/
theorem c6_send_color_keyerror :
    send_message (fun _ => false)
        { clients := [], nextid := 0, events := [], new_events := [] }
        5 "hello".data "\r\n".data (some (ColorArg.name "red".data)) false
      = Except.error PyErr.keyError ∧
    send_message (fun _ => false)
        { clients := [], nextid := 0, events := [], new_events := [] }
        5 "hello".data "\r\n".data none false
      = Except.ok
          ({ clients := [], nextid := 0, events := [], new_events := [] }, []) :=
  ⟨rfl, rfl⟩

/-! ## Claim C9 -/

/-- Claim C9 counterexample: with colour disabled, the formatter strips
`"%bold"` and `"%reset"` to empty but keeps the surrounding characters, so
`"Welcome %bold Bob%reset!"` becomes `"Welcome  Bob!"` — with TWO spaces —
rather than the claimed `"Welcome Bob!"`. -/
theorem c9_color_strip_counterexample :
    multiple_replace "Welcome %bold Bob%reset!".data get_color_list false
        = "Welcome  Bob!".data ∧
    "Welcome  Bob!".data ≠ "Welcome Bob!".data := by
  exact ⟨by decide, by decide⟩

/-- Claim C9 amended: for a registered connection with colour disabled,
`send_message(id, "Welcome %bold Bob%reset!")` strips both colour tokens to
empty and transmits exactly `"Welcome  Bob!"` (the double space left by
stripping `"%bold"` between two spaces-adjacent characters) followed by the
line ending, with no escape sequences emitted. -/
theorem c9_color_strip_amended (s : ServerState) (toid : Nat) (cl : Client)
    (broken : Nat → Bool)
    (hl : lookupClient s.clients toid = some cl) (hc : cl.color_enabled = false)
    (hb : broken toid = false) :
    send_message broken s toid "Welcome %bold Bob%reset!".data "\r\n".data none false
      = Except.ok (s, [(toid, "Welcome  Bob!\r\n".data)]) := by
  have hstrip : multiple_replace "Welcome %bold Bob%reset!".data get_color_list false
      = "Welcome  Bob!".data := by decide
  have hbody : List.intercalate "\r\n".data (chunk80 "Welcome  Bob!".data)
      = "Welcome  Bob!".data := by decide
  simp only [send_message, hl, hc, Bool.false_eq_true, if_false, colorTruthy,
             Bool.or_self, hstrip, hbody]
  simp [attemptSend, hl, hb]

/-- Witness for `c9_color_strip_amended` on a concrete one-client server. -/
theorem c9_color_strip_witness :
    send_message (fun _ => false)
        { clients := [(7, { freshClient with color_enabled := false })],
          nextid := 8, events := [], new_events := [] }
        7 "Welcome %bold Bob%reset!".data "\r\n".data none false
      = Except.ok
          ({ clients := [(7, { freshClient with color_enabled := false })],
             nextid := 8, events := [], new_events := [] },
           [(7, "Welcome  Bob!\r\n".data)]) :=
  c9_color_strip_amended
    { clients := [(7, { freshClient with color_enabled := false })],
      nextid := 8, events := [], new_events := [] }
    7 { freshClient with color_enabled := false } (fun _ => false) rfl rfl rfl

/-! ## Claim C7 -/

theorem foldl_probe_nodue (act : Activity) (hdue : ∀ i, act.due i = false) :
    ∀ (l : List (Nat × Client)) (st : ServerState), l.foldl (probeStep act) st = st
  | [], _ => rfl
  | p :: rest, st => by
      have hp : probeStep act st p = st := by simp [probeStep, hdue]
      rw [List.foldl_cons, hp, foldl_probe_nodue act hdue rest st]

theorem foldl_msg_noread (act : Activity) (hread : ∀ i, act.readable i = none) :
    ∀ (l : List (Nat × Client)) (st : ServerState), l.foldl (messageStep act) st = st
  | [], _ => rfl
  | p :: rest, st => by
      have hp : messageStep act st p = st := by simp [messageStep, hread]
      rw [List.foldl_cons, hp, foldl_msg_noread act hread rest st]

/-- Claim C7 (confirmed): an accept surfaces its new-player event in the
visible list of exactly the next `update` tick, exactly once; a second
`update` with no activity leaves an empty new-players list, because
`update` replaces the visible list with the pending list and clears the
pending list (mudserver.py lines 161-162). -/
theorem c7_event_visibility (s : ServerState) (h : s.new_events = []) :
    get_new_players (update s acceptActivity) = [s.nextid] ∧
    get_new_players (update (update s acceptActivity) noActivity) = [] := by
  have hdisc : ∀ (st : ServerState) (act : Activity), (∀ i, act.due i = false) →
      checkForDisconnected st act = st :=
    fun st act hd => foldl_probe_nodue act hd st.clients st
  have hmsg : ∀ (st : ServerState) (act : Activity), (∀ i, act.readable i = none) →
      checkForMessages st act = st :=
    fun st act hr => foldl_msg_noread act hr st.clients st
  have hacc : checkForNewConnections s acceptActivity
      = { s with clients := s.clients ++ [(s.nextid, freshClient)],
                 new_events := s.new_events ++ [MEvent.newPlayer s.nextid],
                 nextid := s.nextid + 1 } := rfl
  have hupd : update s acceptActivity
      = { clients := s.clients ++ [(s.nextid, freshClient)], nextid := s.nextid + 1,
          events := s.new_events ++ [MEvent.newPlayer s.nextid], new_events := [] } := by
    simp only [update]
    rw [hacc, hdisc _ _ (fun i => rfl), hmsg _ _ (fun i => rfl)]
  have hnoact : ∀ (st : ServerState), update st noActivity
      = { clients := st.clients, nextid := st.nextid, events := st.new_events,
          new_events := [] } := by
    intro st
    simp only [update]
    rw [show checkForNewConnections st noActivity = st from rfl,
        hdisc _ _ (fun i => rfl), hmsg _ _ (fun i => rfl)]
  constructor
  · rw [hupd, h]
    simp [get_new_players]
  · rw [hupd, hnoact]
    simp [get_new_players]

/-- Witness for `c7_event_visibility` on an empty initial server. -/
theorem c7_event_visibility_witness :
    get_new_players
        (update { clients := [], nextid := 0, events := [], new_events := [] }
          acceptActivity) = [0] ∧
    get_new_players
        (update (update { clients := [], nextid := 0, events := [], new_events := [] }
          acceptActivity) noActivity) = [] :=
  c7_event_visibility { clients := [], nextid := 0, events := [], new_events := [] } rfl

/-! ## Claim C8 -/

theorem attemptSend_nextid (broken : Nat → Bool) (s : ServerState) (clid : Nat)
    (d : List Char) : (attemptSend broken s clid d).1.nextid = s.nextid := by
  unfold attemptSend
  cases hl : lookupClient s.clients clid with
  | none => rfl
  | some c => by_cases hb : broken clid <;> simp [hb, handleDisconnect]

theorem probeStep_nextid (act : Activity) (st : ServerState) (p : Nat × Client) :
    (probeStep act st p).nextid = st.nextid := by
  unfold probeStep
  by_cases hd : act.due p.1 <;> simp [hd, attemptSend_nextid]

theorem messageStep_nextid (act : Activity) (st : ServerState) (p : Nat × Client) :
    (messageStep act st p).nextid = st.nextid := by
  cases hr : act.readable p.1 with
  | none => simp [messageStep, hr]
  | some data =>
      cases hm : (processSentData p.2 data).message with
      | none => simp [messageStep, hr, hm]
      | some m => by_cases hme : m = [] <;> simp [messageStep, hr, hm, hme]

theorem foldl_nextid (f : ServerState → (Nat × Client) → ServerState)
    (hf : ∀ st p, (f st p).nextid = st.nextid) :
    ∀ (l : List (Nat × Client)) (s0 : ServerState), (l.foldl f s0).nextid = s0.nextid
  | [], _ => rfl
  | p :: rest, s0 => by
      rw [List.foldl_cons, foldl_nextid f hf rest (f s0 p), hf]

theorem checkForDisconnected_nextid (s : ServerState) (act : Activity) :
    (checkForDisconnected s act).nextid = s.nextid :=
  foldl_nextid (probeStep act) (probeStep_nextid act) s.clients s

theorem checkForMessages_nextid (s : ServerState) (act : Activity) :
    (checkForMessages s act).nextid = s.nextid :=
  foldl_nextid (messageStep act) (messageStep_nextid act) s.clients s

theorem checkForNewConnections_nextid (s : ServerState) (act : Activity) :
    (checkForNewConnections s act).nextid
      = s.nextid + (if act.incoming then 1 else 0) := by
  unfold checkForNewConnections
  by_cases hi : act.incoming <;> simp [hi]

theorem update_nextid (s : ServerState) (act : Activity) :
    (update s act).nextid = s.nextid + (if act.incoming then 1 else 0) := by
  show (checkForMessages (checkForDisconnected (checkForNewConnections s act) act) act).nextid
      = _
  rw [checkForMessages_nextid, checkForDisconnected_nextid, checkForNewConnections_nextid]

theorem assigned_lb : ∀ (acts : List Activity) (s : ServerState) (i : Nat),
    i ∈ assignedIds s acts → s.nextid ≤ i
  | [], s, i, h => by simp [assignedIds] at h
  | act :: rest, s, i, h => by
      simp only [assignedIds] at h
      rcases List.mem_append.mp h with h1 | h1
      · by_cases hi : act.incoming
        · simp [hi] at h1
          omega
        · simp [hi] at h1
      · have hle := assigned_lb rest (update s act) i h1
        have hup := update_nextid s act
        by_cases hi : act.incoming <;> simp [hi] at hup <;> omega

theorem assignedIds_pairwise : ∀ (acts : List Activity) (s : ServerState),
    (assignedIds s acts).Pairwise (· < ·)
  | [], _ => by simp [assignedIds]
  | act :: rest, s => by
      simp only [assignedIds]
      by_cases hi : act.incoming
      · simp only [hi, if_true, List.singleton_append]
        refine List.Pairwise.cons ?_ (assignedIds_pairwise rest (update s act))
        intro b hb
        have hle := assigned_lb rest (update s act) b hb
        have hup := update_nextid s act
        simp [hi] at hup
        omega
      · simp only [hi, if_false, List.nil_append]
        exact assignedIds_pairwise rest (update s act)

/-- Claim C8 (confirmed): over any run of ticks with any pattern of
accepts, disconnects and reads, the identifiers handed out are strictly
increasing in order of assignment, hence never reused within the process
lifetime — removal of a client never decrements or recycles `_nextid`
(mudserver.py lines 411-415, 486-493). -/
theorem c8_ids_strictly_increasing (s : ServerState) (acts : List Activity) :
    (assignedIds s acts).Pairwise (· < ·) ∧ (assignedIds s acts).Nodup :=
  ⟨assignedIds_pairwise acts s,
   (assignedIds_pairwise acts s).imp (fun h => Nat.ne_of_lt h)⟩

/-! ## Claim C10 -/

theorem pyStrip_all_space (l : List Char) (h : ∀ c ∈ l, isPySpace c = true) :
    pyStrip l = [] := by
  unfold pyStrip
  rw [List.dropWhile_eq_nil_iff.mpr h]
  rfl

theorem wsbyte_space (b : Nat) (h : b = 32 ∨ b = 9 ∨ b = 13 ∨ b = 11 ∨ b = 12) :
    isPySpace (Char.ofNat b) = true := by
  rcases h with rfl | rfl | rfl | rfl | rfl <;> decide

/-- Claim C10 (confirmed): at the public interface, a bare newline on an
empty line buffer completes the empty message, which is falsy in
`if message:` (mudserver.py line 461), so no command event is produced; a
whitespace-only line is truthy, is stripped to the empty string and split,
producing exactly one command event with empty verb and empty argument. -/
theorem c10_empty_vs_whitespace (clid nid : Nat) (cl : Client) (evs : List MEvent)
    (ws : List Nat)
    (hbuf : cl.buffer = [])
    (hws : ws ≠ [])
    (hall : ∀ b ∈ ws, b = 32 ∨ b = 9 ∨ b = 13 ∨ b = 11 ∨ b = 12) :
    get_commands
        (update { clients := [(clid, cl)], nextid := nid, events := evs, new_events := [] }
          { noActivity with readable := fun _ => some [10] }) = [] ∧
    get_commands
        (update { clients := [(clid, cl)], nextid := nid, events := evs, new_events := [] }
          { noActivity with readable := fun _ => some (ws ++ 10 :: []) })
      = [(clid, ([], []))] := by
  have h10ws : (10 : Nat) ∉ ws := by
    intro hx
    rcases hall 10 hx with h' | h' | h' | h' | h' <;> simp at h'
  have h8ws : (8 : Nat) ∉ ws := by
    intro hx
    rcases hall 8 hx with h' | h' | h' | h' | h' <;> simp at h'
  have h255 : (255 : Nat) ∉ ws ++ 10 :: ([] : List Nat) := by
    intro hx
    rcases List.mem_append.mp hx with hx | hx
    · rcases hall 255 hx with h' | h' | h' | h' | h' <;> simp at h'
    · simp at hx
  have hfold : (ws ++ 10 :: ([] : List Nat)).foldl lineStep (cl.buffer, none)
      = ([], some (ws.map Char.ofNat)) := by
    rw [List.foldl_append, lineStep_no_nl ws _ _ h10ws, bufStep_no_bs ws _ h8ws, hbuf,
        List.foldl_cons]
    simp [lineStep]
  have hpsd : processSentData cl (ws ++ 10 :: [])
      = { client := { cl with buffer := [] }, message := some (ws.map Char.ofNat),
          sent := [] } := by
    rw [psd_no_iac cl _ h255, hfold]
  have hm1 : processSentData cl [10]
      = { client := { cl with buffer := [] }, message := some cl.buffer, sent := [] } := rfl
  have hmape : ws.map Char.ofNat ≠ [] := by
    intro hx
    exact hws (by simpa using hx)
  have hstrip : pyStrip (ws.map Char.ofNat) = [] := by
    apply pyStrip_all_space
    intro ch hch
    rcases List.mem_map.mp hch with ⟨b, hb, rfl⟩
    exact wsbyte_space b (hall b hb)
  constructor
  · simp [update, checkForNewConnections, checkForDisconnected, probeStep,
          checkForMessages, messageStep, noActivity, hm1, hbuf, get_commands,
          storeClient, List.foldl_cons, List.foldl_nil]
  · simp [update, checkForNewConnections, checkForDisconnected, probeStep,
          checkForMessages, messageStep, noActivity, hpsd, hmape, hstrip,
          splitFirstSpace, pyLower, get_commands, storeClient,
          List.foldl_cons, List.foldl_nil]

/-- Witness for `c10_empty_vs_whitespace` with a single space as the
whitespace-only line. -/
theorem c10_empty_vs_whitespace_witness :
    get_commands
        (update { clients := [(3, freshClient)], nextid := 4, events := [], new_events := [] }
          { noActivity with readable := fun _ => some [10] }) = [] ∧
    get_commands
        (update { clients := [(3, freshClient)], nextid := 4, events := [], new_events := [] }
          { noActivity with readable := fun _ => some ([32] ++ 10 :: []) })
      = [(3, ([], []))] :=
  c10_empty_vs_whitespace 3 4 freshClient [] [32] rfl (by decide) (by decide)

end Mud
